import Mathlib

/-!
Verification of the BuilderSolve query/filtering engine
(`backend/tools/helpers.py`, `schedule_tools.py`, `payment_tools.py`,
`comparison_tools.py`) against its natural-language specification.

The Python code operates on loosely-typed dictionaries.  Following the
spec's own porting guidance (§9: "reimplement as explicit typed records
with required defaults"), tasks, dependencies, payment stages and
comparison rows are embedded as Lean structures whose fields carry the
defaults that `dict.get(key, default)` supplies in the source.  Python
floats are modelled as rationals (`ℚ`) and Python's `round(x, n)` as
rounding of a rational to `n` decimal places.  Text handling models the
ASCII fragment the repository's data uses (task names, ISO dates,
cost codes).

One dictionary subtlety is kept: `helpers.match_text` tests
`"mainTaskId" in item` — key *presence*, which Python distinguishes from
a key stored with value `None`.  The `mainTaskId` field is therefore
`Option (Option String)`: `none` = key absent, `some none` = key present
holding `None`, `some (some s)` = key present holding the string `s`.
`task.get("mainTaskId")` is `Option.join` of that field.
-/

namespace BuilderSolve

/-! ## Python string basics -/

/-- Python truthiness of an optional string: `None` and `""` are falsy. -/
def optStrTruthy : Option String → Bool
  | none => false
  | some s => s ≠ ""

/-- The characters Python's `str.strip()` and the regex class `\s` treat as
whitespace (ASCII fragment). -/
def pySpaceChar (c : Char) : Bool :=
  c = ' ' || c = '\t' || c = '\n' || c = '\r' || c = '\x0b' || c = '\x0c'

/-- Python `str.strip()` on a character list. -/
def pyStripChars (l : List Char) : List Char :=
  ((l.dropWhile pySpaceChar).reverse.dropWhile pySpaceChar).reverse

/-- Python `str.strip()`. -/
def pyStrip (s : String) : String := ⟨pyStripChars s.data⟩

/-- Python `str.lower()` (ASCII fragment). -/
def pyLower (s : String) : String := ⟨s.data.map Char.toLower⟩

/-- Python `round(x, 2)` on a rational: round to 2 decimal places. -/
def round2 (x : ℚ) : ℚ := (round (x * 100) : ℤ) / 100

/-- Python `round(x, 1)` on a rational: round to 1 decimal place. -/
def round1 (x : ℚ) : ℚ := (round (x * 10) : ℤ) / 10

/-! ## Text Matcher (`helpers.normalize_text` / `helpers.fuzzy_match`) -/

/-- `re.sub(r'[_\-]+', ' ', ·)`: replace each maximal run of underscores
and hyphens by a single space.  The flag records whether the previous
character belonged to such a run. -/
def collapseDashRuns : List Char → Bool → List Char
  | [], _ => []
  | c :: rest, inRun =>
    if c = '_' ∨ c = '-' then
      (if inRun then [] else [' ']) ++ collapseDashRuns rest true
    else c :: collapseDashRuns rest false

/-- The character class `[a-z0-9\s]` kept by
`re.sub(r'[^a-z0-9\s]', '', ·)` (the input is already lowercased). -/
def keepAlnumSpace (c : Char) : Bool :=
  c.isLower || c.isDigit || pySpaceChar c

/-- `re.sub(r'\s+', ' ', ·)`: replace each maximal whitespace run by a
single space. -/
def collapseSpaceRuns : List Char → Bool → List Char
  | [], _ => []
  | c :: rest, inRun =>
    if pySpaceChar c then
      (if inRun then [] else [' ']) ++ collapseSpaceRuns rest true
    else c :: collapseSpaceRuns rest false

/-- `helpers.normalize_text` (`helpers.py` lines 10–40) on a character
list: lowercase, collapse `[_-]+` runs to a space, drop characters outside
`[a-z0-9\s]`, collapse whitespace runs, strip. -/
def normalizeChars (l : List Char) : List Char :=
  pyStripChars
    (collapseSpaceRuns
      ((collapseDashRuns (l.map Char.toLower) false).filter keepAlnumSpace) false)

/-- `helpers.normalize_text` (`helpers.py` lines 10–40). -/
def normalizeText (s : String) : String := ⟨normalizeChars s.data⟩

/-- Python's substring test `pat in text` on character lists. -/
def listContains (pat text : List Char) : Bool :=
  match text with
  | [] => pat.isEmpty
  | c :: rest => pat.isPrefixOf (c :: rest) || listContains pat rest

/-- Python `str.split()` (no separator): whitespace-delimited words,
no empty words. -/
def pyWordsAux : List Char → List Char → List (List Char)
  | [], acc => if acc.isEmpty then [] else [acc.reverse]
  | c :: rest, acc =>
    if pySpaceChar c then
      if acc.isEmpty then pyWordsAux rest [] else acc.reverse :: pyWordsAux rest []
    else pyWordsAux rest (c :: acc)

/-- Python `str.split()` (no separator). -/
def pyWords (l : List Char) : List (List Char) := pyWordsAux l []

/-- Drop everything up to and including the leftmost occurrence of `pat`
in `text`; `none` when `pat` does not occur.  (Helper for the regex
`t₁.*t₂.*…` search below.) -/
def dropAfterMatch (pat text : List Char) : Option (List Char) :=
  match text with
  | [] => if pat.isEmpty then some [] else none
  | c :: rest =>
    if pat.isPrefixOf (c :: rest) then some ((c :: rest).drop pat.length)
    else dropAfterMatch pat rest

/-- `re.search('.*'.join(map(re.escape, toks)), text)`: the tokens occur
in `text` in order at non-overlapping positions.  Taking the leftmost
occurrence of each token in turn is complete for this pattern shape. -/
def tokensInOrder : List (List Char) → List Char → Bool
  | [], _ => true
  | t :: ts, text =>
    match dropAfterMatch t text with
    | some rest => tokensInOrder ts rest
    | none => false

/-- `helpers.fuzzy_match` (`helpers.py` lines 43–92): empty query matches
everything; otherwise after normalization try (a) substring, (b) every
query token a substring, (c) space-free substring, (d) for multi-token
queries the tokens in order. -/
def fuzzyMatch (query text : String) : Bool :=
  if query = "" then true
  else if text = "" then false
  else
    let nq := normalizeChars query.data
    let nt := normalizeChars text.data
    if nq.isEmpty then true
    else if listContains nq nt then true
    else
      let toks := pyWords nq
      if toks.isEmpty then true
      else if toks.all (fun t => listContains t nt) then true
      else if listContains (nq.filter (· ≠ ' ')) (nt.filter (· ≠ ' ')) then true
      else if toks.length > 1 then tokensInOrder toks nt
      else false

/-! ## Data model (spec §3) -/

/-- `Dependency` record (spec §3): a predecessor reference by stable id
(`predecessorId`) or legacy index (`predecessorTaskId`), a type
(default `"FS"` via `dep.get("type", "FS")`) and a lag (default 0). -/
structure Dependency where
  predecessorId : Option String := none
  predecessorTaskId : Option String := none
  type : String := "FS"
  lag : ℚ := 0
  deriving Repr, DecidableEq

/-- `PaymentStage` record (spec §3): the fields read by the payment
aggregator, with the defaults the source supplies
(`stage.get("percentage", 0)`, `stage.get("isManualDate", True)`). -/
structure PaymentStage where
  name : String := ""
  percentage : ℚ := 0
  effectiveDate : Option String := none
  isManualDate : Bool := true
  deriving Repr, DecidableEq

/-- `Task` (schedule row, spec §3): the fields read by the verified query
operations, with the defaults used at each `task.get(...)` site.
`mainTaskId : Option (Option String)` keeps Python's distinction between a
missing key and a key holding `None` (see module docstring). -/
structure Task where
  id : String := ""
  index : Int := 0
  task : String := ""
  taskType : String := ""
  remarks : String := ""
  percentageComplete : ℚ := 0
  startDate : Option String := none
  endDate : Option String := none
  duration : ℚ := 0
  hours : ℚ := 0
  isCritical : Bool := false
  isMainTask : Bool := false
  mainTaskId : Option (Option String) := none
  mainTaskIndex : Option Int := none
  subtaskIds : List String := []
  subtaskIndices : List Int := []
  dependencies : List Dependency := []
  paymentStages : List PaymentStage := []
  totalPaymentAmount : ℚ := 0
  deriving Repr, DecidableEq

/-- `task.get("mainTaskId")`: collapses key-absent and `None`-valued. -/
def Task.mainTaskIdVal (t : Task) : Option String := t.mainTaskId.join

/-- `helpers.get_task_status` (`helpers.py` lines 192–208): derive
`completed` / `in_progress` / `not_started` from `percentageComplete`. -/
def getTaskStatus (t : Task) : String :=
  if t.percentageComplete ≥ 100 then "completed"
  else if t.percentageComplete > 0 then "in_progress"
  else "not_started"

/-- The record shape emitted by `helpers.format_task_summary`. -/
structure TaskSummary where
  id : String
  task : String
  taskType : String
  status : String
  percentageComplete : ℚ
  startDate : Option String
  endDate : Option String
  duration : ℚ
  hours : ℚ
  isCritical : Bool
  isMainTask : Bool
  hasPayments : Bool
  totalPaymentAmount : ℚ
  deriving Repr, DecidableEq

/-- `helpers.format_task_summary` (`helpers.py` lines 244–268). -/
def formatTaskSummary (t : Task) : TaskSummary :=
  { id := t.id
    task := t.task
    taskType := t.taskType
    status := getTaskStatus t
    percentageComplete := t.percentageComplete
    startDate := t.startDate
    endDate := t.endDate
    duration := t.duration
    hours := t.hours
    isCritical := t.isCritical
    isMainTask := t.isMainTask
    hasPayments := t.paymentStages.length > 0
    totalPaymentAmount := t.totalPaymentAmount }

/-! ## Field-set matching with hierarchy context
(`helpers.build_searchable_context` / `helpers.match_text`) -/

/-- `item.get(field)` restricted to the four string-valued fields the
searchable-field lists of the source name (`task`, `remarks`, `id`,
`taskType`); any other name yields `None`. -/
def taskFieldStr (t : Task) (field : String) : Option String :=
  if field = "task" then some t.task
  else if field = "remarks" then some t.remarks
  else if field = "id" then some t.id
  else if field = "taskType" then some t.taskType
  else none

/-- `helpers.build_searchable_context` (`helpers.py` lines 95–142): the
task's nonempty `task`, `remarks`, `id`, `taskType` values; then, when a
parent is referenced and the first schedule entry matching the id (or,
failing that on the same entry, the index) has a nonempty name, that
name prefixed with `"under "` followed by the bare name; space-joined. -/
def buildSearchableContext (t : Task) (schedule : List Task)
    (includeParent : Bool) : String :=
  let parts := ["task", "remarks", "id", "taskType"].filterMap (fun f =>
    match taskFieldStr t f with
    | some v => if v ≠ "" then some v else none
    | none => none)
  let parentParts :=
    if includeParent ∧ schedule ≠ [] then
      if optStrTruthy t.mainTaskIdVal ∨ t.mainTaskIndex.isSome then
        match schedule.find? (fun p =>
            (t.mainTaskIdVal == some p.id) || (t.mainTaskIndex == some p.index)) with
        | some parent =>
          if parent.task ≠ "" then ["under " ++ parent.task, parent.task] else []
        | none => []
      else []
    else []
  String.intercalate " " (parts ++ parentParts)

/-- `helpers.match_text` (`helpers.py` lines 145–189): trivial queries
(`""`, `all`, `*` after strip/lowercase) match everything; otherwise
fuzzy-match the stripped query against the named fields' nonempty values,
extended by `build_searchable_context` whenever parent context is
requested, the schedule is nonempty and the item carries a `mainTaskId`
key. -/
def matchText (item : Task) (searchQuery : String) (fields : List String)
    (schedule : List Task) (includeParentContext : Bool) : Bool :=
  if searchQuery = "" then true
  else
    let query := pyStrip searchQuery
    if pyLower query = "all" ∨ pyLower query = "*" ∨ pyLower query = "" then true
    else
      let ownParts := fields.filterMap (fun f =>
        match taskFieldStr item f with
        | some v => if v ≠ "" then some v else none
        | none => none)
      let contextParts := ownParts ++
        (if includeParentContext ∧ schedule ≠ [] ∧ item.mainTaskId.isSome then
          [buildSearchableContext item schedule true] else [])
      fuzzyMatch query (String.intercalate " " contextParts)

/-- The `searchQuery` filter step of `execute_query_schedule`
(`schedule_tools.py` lines 59–70): a task passes iff `match_text` over the
fields `["task", "remarks"]` with hierarchical context succeeds. -/
def scheduleSearchPass (schedule : List Task) (q : String) (t : Task) : Bool :=
  matchText t q ["task", "remarks"] schedule true

/-! ## Hierarchy Resolver (`execute_query_task_hierarchy`) -/

/-- Subtask collection of `execute_query_task_hierarchy`
(`schedule_tools.py` lines 308–322): the `if`/`elif`/`elif` chain over the
schedule appending a task when its `id` is in the parent's `subtaskIds`,
else when its `index` is in the parent's `subtaskIndices`, else when its
`mainTaskId` equals the parent's `id`. -/
def hierarchySubtasks (mainTask : Task) : List Task → List Task
  | [] => []
  | t :: rest =>
    if t.id ∈ mainTask.subtaskIds then t :: hierarchySubtasks mainTask rest
    else if t.index ∈ mainTask.subtaskIndices then t :: hierarchySubtasks mainTask rest
    else if t.mainTaskIdVal == some mainTask.id then t :: hierarchySubtasks mainTask rest
    else hierarchySubtasks mainTask rest

/-- The union-of-three-linkage-paths membership condition of spec §3/§4.4. -/
def subtaskLinked (mainTask t : Task) : Prop :=
  t.id ∈ mainTask.subtaskIds ∨ t.index ∈ mainTask.subtaskIndices ∨
    t.mainTaskIdVal = some mainTask.id

instance (mainTask t : Task) : Decidable (subtaskLinked mainTask t) := by
  unfold subtaskLinked; infer_instance

/-! ## Dependency Graph Walker (`execute_query_dependencies`) -/

/-- `id_to_task.get(k)` for `id_to_task = {t.get("id"): t for t in schedule}`:
a Python dict comprehension keeps the *last* entry for a duplicated key. -/
def findById (schedule : List Task) (k : String) : Option Task :=
  schedule.reverse.find? (fun t => t.id == k)

/-- `index_to_task.get(k)` for
`index_to_task = {str(t.get("index")): t for t in schedule}`. -/
def findByIndex (schedule : List Task) (k : String) : Option Task :=
  schedule.reverse.find? (fun t => toString t.index == k)

/-- `dep.get("predecessorId") or dep.get("predecessorTaskId")`:
the stable id when truthy, otherwise the legacy index-based reference. -/
def depPredKey (dep : Dependency) : Option String :=
  if optStrTruthy dep.predecessorId then dep.predecessorId
  else dep.predecessorTaskId

/-- `id_to_task.get(pred_id) or index_to_task.get(pred_id)`
(`schedule_tools.py` line 415). -/
def resolvePred (schedule : List Task) (dep : Dependency) : Option Task :=
  match depPredKey dep with
  | none => none
  | some k =>
    match findById schedule k with
    | some t => some t
    | none => findByIndex schedule k

/-- One node of the predecessor tree built by `get_predecessors`
(`schedule_tools.py` lines 403–429): a task summary, the dependency type
and lag, and — only when `includeChain` — the recursive predecessor list
(`none` models the absent `"predecessors"` key). -/
inductive PredTree where
  | node (summary : TaskSummary) (dependencyType : String) (lag : ℚ)
      (predecessors : Option (List PredTree))
  deriving Repr

/-- `get_predecessors` (`schedule_tools.py` lines 403–429), with the
shared mutable `visited` set threaded explicitly and the recursion depth
bounded by an explicit fuel.  A task whose id is already in `visited`
contributes `([], visited)`; otherwise its id is added and each
dependency whose predecessor resolves emits a node, recursing (when
`includeChain`) with the current `visited` state.  `getPredecessors`
below starts with fuel `schedule.length + 1`, which theorem
`predecessor_walk_terminates` proves is past the stabilization point. -/
def getPredsF : Nat → List Task → Bool → Task → List String →
    List PredTree × List String
  | 0, _, _, _, visited => ([], visited)
  | fuel + 1, schedule, includeChain, task, visited =>
    if task.id ∈ visited then ([], visited)
    else
      task.dependencies.foldl
        (fun st dep =>
          match resolvePred schedule dep with
          | none => st
          | some predTask =>
            let chain :=
              if includeChain then getPredsF fuel schedule includeChain predTask st.2
              else ([], st.2)
            (st.1 ++ [PredTree.node (formatTaskSummary predTask) dep.type dep.lag
                (if includeChain then some chain.1 else none)],
              chain.2))
        ([], task.id :: visited)

/-- The top-level call `get_predecessors(target_task)`
(`schedule_tools.py` line 431): fresh empty `visited` set. -/
def getPredecessors (schedule : List Task) (includeChain : Bool) (task : Task) :
    List PredTree × List String :=
  getPredsF (schedule.length + 1) schedule includeChain task []

/-- The set of task ids appearing in a schedule. -/
def idSet (schedule : List Task) : Finset String :=
  (schedule.map Task.id).toFinset

/-- Number of schedule ids not yet visited: the walker's termination
measure. -/
def remainingIds (schedule : List Task) (visited : List String) : Nat :=
  (idSet schedule \ visited.toFinset).card

/-! ## Payment Schedule Aggregator (`execute_query_payment_schedule`) -/

/-- A calendar date as produced by `datetime.fromisoformat` on the
repository's `YYYY-MM-DD` strings; ordered by `(year, month, day)`. -/
structure PyDate where
  year : Nat
  month : Nat
  day : Nat
  deriving Repr, DecidableEq

/-- Lexicographic date key; `datetime` comparison on dates coincides with
comparison of these keys. -/
def PyDate.key (d : PyDate) : Nat := d.year * 10000 + d.month * 100 + d.day

/-- `datetime.__lt__` on dates. -/
def pyDateLt (a b : PyDate) : Bool := a.key < b.key

/-- Digits-only decimal parse. -/
def parseNatDigits (l : List Char) : Option Nat :=
  if !l.isEmpty && l.all Char.isDigit then
    some (l.foldl (fun acc c => acc * 10 + (c.toNat - 48)) 0)
  else none

/-- Month lengths, with leap years, as `datetime` validates them. -/
def daysInMonth (y m : Nat) : Nat :=
  if m = 2 then
    if (y % 4 = 0 ∧ y % 100 ≠ 0) ∨ y % 400 = 0 then 29 else 28
  else if m = 4 ∨ m = 6 ∨ m = 9 ∨ m = 11 then 30
  else 31

/-- `datetime.fromisoformat` restricted to the calendar-date grammar
`YYYY-MM-DD` the repository's date fields use; anything else fails
(models the `ValueError` branch returning `None`). -/
def parseIsoDate (l : List Char) : Option PyDate :=
  match l with
  | [y1, y2, y3, y4, '-', m1, m2, '-', d1, d2] =>
    match parseNatDigits [y1, y2, y3, y4], parseNatDigits [m1, m2],
        parseNatDigits [d1, d2] with
    | some y, some m, some d =>
      if 1 ≤ y ∧ 1 ≤ m ∧ m ≤ 12 ∧ 1 ≤ d ∧ d ≤ daysInMonth y m then
        some ⟨y, m, d⟩
      else none
    | _, _, _ => none
  | _ => none

/-- `helpers.parse_date` (`helpers.py` lines 211–228): `None`/`""` parse
to `None`; otherwise replace every `'Z'` by `"+00:00"`, keep the part
before the first `'T'`, and parse it as an ISO date; failures yield
`None`. -/
def parseDate (dateStr : Option String) : Option PyDate :=
  match dateStr with
  | none => none
  | some s =>
    if s = "" then none
    else
      parseIsoDate
        (((s.data.flatMap fun c =>
          if c = 'Z' then '+' :: '0' :: '0' :: ':' :: '0' :: '0' :: [] else [c])).takeWhile
          (· ≠ 'T'))

/-- One element of the `all_payments` list built by
`execute_query_payment_schedule` (`payment_tools.py` lines 79–95);
`parentTaskName = none` models the absent key. -/
structure PaymentEntry where
  taskId : String
  taskName : String
  taskType : String
  stageName : String
  percentage : ℚ
  amount : ℚ
  effectiveDate : Option String
  isManualDate : Bool
  taskStatus : String
  parentTaskName : Option String
  deriving Repr, DecidableEq

/-- Arguments of `query_payment_schedule` relevant to entry collection. -/
structure PaymentArgs where
  dateFrom : Option String := none
  dateTo : Option String := none
  taskType : Option String := none
  taskSearch : Option String := none
  deriving Repr, DecidableEq

/-- The per-stage date filter of `execute_query_payment_schedule`
(`payment_tools.py` lines 67–74): a stage is skipped only when a bound is
supplied, its `effectiveDate` parses, and the parsed date falls outside
the bound. -/
def stageKeep (dateFrom dateTo : Option PyDate) (stage : PaymentStage) : Bool :=
  let ed := parseDate stage.effectiveDate
  let skipFrom :=
    match dateFrom, ed with
    | some df, some d => pyDateLt d df
    | _, _ => false
  let skipTo :=
    match dateTo, ed with
    | some dt, some d => pyDateLt dt d
    | _, _ => false
  !skipFrom && !skipTo

/-- Parent-name resolution of `execute_query_payment_schedule`
(`payment_tools.py` lines 58–65): when the task's `mainTaskId` value is
truthy, the name of the first schedule entry with that id. -/
def paymentParentName (schedule : List Task) (task : Task) : Option String :=
  if optStrTruthy task.mainTaskIdVal then
    match schedule.find? (fun p => task.mainTaskIdVal == some p.id) with
    | some parent => some parent.task
    | none => none
  else none

/-- One payment entry (`payment_tools.py` lines 76–95): the amount is
`totalPaymentAmount × percentage/100` rounded to 2 decimals; the
`parentTaskName` key is added only when the resolved name is truthy. -/
def mkPaymentEntry (schedule : List Task) (task : Task) (stage : PaymentStage) :
    PaymentEntry :=
  { taskId := task.id
    taskName := task.task
    taskType := task.taskType
    stageName := stage.name
    percentage := stage.percentage
    amount := round2 (task.totalPaymentAmount * (stage.percentage / 100))
    effectiveDate := stage.effectiveDate
    isManualDate := stage.isManualDate
    taskStatus := getTaskStatus task
    parentTaskName :=
      match paymentParentName schedule task with
      | some n => if n = "" then none else some n
      | none => none }

/-- The task-type filter (`payment_tools.py` lines 43–45): skip a task
only when a truthy `taskType` argument differs from the task's type. -/
def taskTypeOk (taskType : Option String) (task : Task) : Bool :=
  !(optStrTruthy taskType && !(taskType == some task.taskType))

/-- The hierarchical task-search filter (`payment_tools.py` lines 47–52). -/
def taskSearchOk (taskSearch : Option String) (schedule : List Task)
    (task : Task) : Bool :=
  if optStrTruthy taskSearch then
    fuzzyMatch (taskSearch.getD "") (buildSearchableContext task schedule true)
  else true

/-- The payment entries one task contributes to `all_payments`
(`payment_tools.py` lines 42–95): nothing when the task fails the type or
search filter or has `totalPaymentAmount ≤ 0`; otherwise one entry per
stage surviving the date filter. -/
def taskPayments (dateFrom dateTo : Option PyDate)
    (taskType taskSearch : Option String) (schedule : List Task)
    (task : Task) : List PaymentEntry :=
  if !(taskTypeOk taskType task) then []
  else if !(taskSearchOk taskSearch schedule task) then []
  else if task.totalPaymentAmount ≤ 0 then []
  else (task.paymentStages.filter (stageKeep dateFrom dateTo)).map
    (mkPaymentEntry schedule task)

/-- The unsorted `all_payments` list (`payment_tools.py` lines 40–95). -/
def collectPayments (dateFrom dateTo : Option PyDate)
    (taskType taskSearch : Option String) (schedule : List Task) :
    List PaymentEntry :=
  schedule.flatMap (taskPayments dateFrom dateTo taskType taskSearch schedule)

/-- The sort key `x.get("effectiveDate") or "9999-12-31"`
(`payment_tools.py` line 98): a falsy date (absent or empty) becomes the
sentinel. -/
def paymentSortKey (e : PaymentEntry) : String :=
  match e.effectiveDate with
  | some d => if d = "" then "9999-12-31" else d
  | none => "9999-12-31"

/-- Python string comparison `≤` on character lists: lexicographic by
code point. -/
def charListLe : List Char → List Char → Bool
  | [], _ => true
  | _ :: _, [] => false
  | a :: as, b :: bs =>
    if a.toNat < b.toNat then true
    else if a.toNat = b.toNat then charListLe as bs
    else false

/-- Python string comparison `≤`: lexicographic by code point. -/
def pyStrLe (a b : String) : Bool := charListLe a.data b.data

/-- `all_payments.sort(key=...)` (`payment_tools.py` lines 97–98):
Python's stable ascending sort, modelled by the stable `mergeSort` with
Python's string comparison on the keys. -/
def sortPayments (l : List PaymentEntry) : List PaymentEntry :=
  l.mergeSort (fun a b => pyStrLe (paymentSortKey a) (paymentSortKey b))

/-- The sorted payment-entry list of `execute_query_payment_schedule`
(`payment_tools.py` lines 31–98).  All three output modes (`list`,
`summary`, `timeline`) consume this list; `list` mode returns it as
`payments`. -/
def queryPayments (args : PaymentArgs) (schedule : List Task) :
    List PaymentEntry :=
  sortPayments (collectPayments (parseDate args.dateFrom) (parseDate args.dateTo)
    args.taskType args.taskSearch schedule)

/-! ## Comparison Row Engine (`comparison_tools.py`) -/

/-- A raw budget-vs-actual row as fetched from the comparison API.
Amounts are `none` when missing, `None`-valued or not coercible to a
number (all of which `ensure_float` sends to `0.0`); `tags` is `none`
when the key is missing or not a list. -/
structure RawComparisonRow where
  costCode : String := ""
  budgetedAmount : Option ℚ := none
  consumedAmount : Option ℚ := none
  tags : Option (List String) := none
  fromChangeOrder : Bool := false
  rowType : Option String := none
  deriving Repr, DecidableEq

/-- `helpers.ensure_float` (`helpers.py` lines 393–410) applied to
`row.get(key, 0)`: a missing or uncoercible amount contributes `0.0`. -/
def ensureFloat (v : Option ℚ) : ℚ := v.getD 0

/-- A normalized comparison row as built by `parse_comparison_rows`.
The `tagAmounts` / `consumedTagAmounts` breakdowns are not read by any
verified property and are omitted. -/
structure ParsedRow where
  costCode : String
  budgetedAmount : ℚ
  consumedAmount : ℚ
  differenceAmount : ℚ
  progress : ℚ
  rowType : Option String
  fromChangeOrder : Bool
  tags : List String
  isOverBudget : Bool
  isAllowance : Bool
  isChangeOrder : Bool
  deriving Repr, DecidableEq

/-- One row of `comparison_tools.parse_comparison_rows` (lines 82–127):
coerce amounts, compute difference (rounded to 2 decimals) and progress
(0 on non-positive budget, else `consumed/budgeted×100`, rounded to 1
decimal), take the given tags when they form a truthy list or infer
`co`/`est` plus `alw`, and flag over-budget/allowance/change-order. -/
def parseComparisonRow (row : RawComparisonRow) : ParsedRow :=
  let budgeted := ensureFloat row.budgetedAmount
  let consumed := ensureFloat row.consumedAmount
  let difference := budgeted - consumed
  let progress := if budgeted > 0 then consumed / budgeted * 100 else 0
  let tags :=
    match row.tags with
    | some (t :: ts) => t :: ts
    | _ =>
      (if row.fromChangeOrder then ["co"] else ["est"]) ++
        (if pyLower (row.rowType.getD "") = "allowance" then ["alw"] else [])
  { costCode := row.costCode
    budgetedAmount := budgeted
    consumedAmount := consumed
    differenceAmount := round2 difference
    progress := round1 progress
    rowType := row.rowType
    fromChangeOrder := row.fromChangeOrder
    tags := tags
    isOverBudget := decide (budgeted < consumed)
    isAllowance := decide ("alw" ∈ tags)
    isChangeOrder := decide ("co" ∈ tags) }

/-- `comparison_tools.parse_comparison_rows` (lines 70–129). -/
def parseComparisonRows (rows : List RawComparisonRow) : List ParsedRow :=
  rows.map parseComparisonRow

/-- The record shape emitted by `helpers.format_comparison_row_summary`. -/
structure ComparisonRowSummary where
  costCode : String
  budgetedAmount : ℚ
  consumedAmount : ℚ
  differenceAmount : ℚ
  progress : ℚ
  isOverBudget : Bool
  tags : List String
  isAllowance : Bool
  isChangeOrder : Bool
  deriving Repr, DecidableEq

/-- `helpers.format_comparison_row_summary` (`helpers.py` lines 365–390):
recomputes difference (unrounded here), progress (0 on non-positive
budget, else `consumed/budgeted×100`, rounded to 1 decimal) and the
over-budget flag from the row's amounts. -/
def formatComparisonRowSummary (row : ParsedRow) : ComparisonRowSummary :=
  let budgeted := row.budgetedAmount
  let consumed := row.consumedAmount
  let difference := budgeted - consumed
  let progress := if budgeted > 0 then consumed / budgeted * 100 else 0
  { costCode := row.costCode
    budgetedAmount := budgeted
    consumedAmount := consumed
    differenceAmount := difference
    progress := round1 progress
    isOverBudget := decide (budgeted < consumed)
    tags := row.tags
    isAllowance := decide ("alw" ∈ row.tags)
    isChangeOrder := decide ("co" ∈ row.tags) }

/-- The `details` record of `execute_get_comparison_data`
(`comparison_tools.py` lines 197–202), in dict insertion order labour,
material, subcontractor, other. -/
structure ComparisonDetails where
  labour : List ParsedRow := []
  material : List ParsedRow := []
  subcontractor : List ParsedRow := []
  other : List ParsedRow := []
  deriving Repr, DecidableEq

/-- Category selection of `execute_query_comparison_rows`
(`comparison_tools.py` lines 248–264): `all` concatenates the four
category lists; `allowance` pools allowance rows from each category in
the dict's insertion order; a category name present in `details` selects
its list; any other name falls back to `details.get("other", [])`. -/
def selectComparisonRows (category : String) (d : ComparisonDetails) :
    List ParsedRow :=
  if category = "all" then
    d.labour ++ d.material ++ d.subcontractor ++ d.other
  else if category = "allowance" then
    d.labour.filter (·.isAllowance) ++ d.material.filter (·.isAllowance) ++
      d.subcontractor.filter (·.isAllowance) ++ d.other.filter (·.isAllowance)
  else if category = "labour" then d.labour
  else if category = "material" then d.material
  else if category = "subcontractor" then d.subcontractor
  else if category = "other" then d.other
  else d.other

/-- Filter arguments of `query_comparison_rows`. -/
structure ComparisonArgs where
  category : Option String := none
  tag : Option String := none
  costCodeSearch : Option String := none
  overBudgetOnly : Bool := false
  deriving Repr, DecidableEq

/-- The filtered row list of `execute_query_comparison_rows`
(`comparison_tools.py` lines 238–286): lowercase the category (default
`"all"`), select rows, then apply the truthy tag filter
(case-insensitive membership), the truthy cost-code fuzzy filter, and
the over-budget filter.  Every output mode is computed from this list. -/
def comparisonRowsSelected (args : ComparisonArgs) (d : ComparisonDetails) :
    List ParsedRow :=
  let category := pyLower (args.category.getD "all")
  let rows := selectComparisonRows category d
  let rows :=
    if optStrTruthy args.tag then
      rows.filter (fun r =>
        pyLower (args.tag.getD "") ∈ r.tags.map pyLower)
    else rows
  let rows :=
    if optStrTruthy args.costCodeSearch then
      rows.filter (fun r => fuzzyMatch (args.costCodeSearch.getD "") r.costCode)
    else rows
  if args.overBudgetOnly then rows.filter (·.isOverBudget) else rows

/-! ## Spec-side definitions for refinement comparison -/

/-- The searchable text claim C3 asserts, following the claim's words:
exactly the task's name and remarks, extended — when the task is a
subtask with a resolvable parent — by the parent task's name as a bare
token and prefixed with `"under "`. -/
def claimSearchText (t : Task) (schedule : List Task) : String :=
  let parentPart :=
    match t.mainTaskIdVal with
    | some v =>
      if v ≠ "" then
        match schedule.find? (fun p => p.id == v) with
        | some parent => [parent.task, "under " ++ parent.task]
        | none => []
      else []
    | none => []
  String.intercalate " " ([t.task, t.remarks] ++ parentPart)

/-- The hierarchical-context block of the *amended* C3 claim, spelled out
independently of the code: the task's nonempty name, remarks, id and
taskType plus, when the record references a parent resolved in the
schedule with a nonempty name, that name prefixed with `"under "` and
bare; space-joined. -/
def amendedContextBlock (t : Task) (schedule : List Task) : String :=
  let ctxFields := (if t.task ≠ "" then [t.task] else []) ++
    (if t.remarks ≠ "" then [t.remarks] else []) ++
    (if t.id ≠ "" then [t.id] else []) ++
    (if t.taskType ≠ "" then [t.taskType] else [])
  let ctxParent :=
    if optStrTruthy t.mainTaskIdVal ∨ t.mainTaskIndex.isSome then
      match schedule.find? (fun p =>
          (t.mainTaskIdVal == some p.id) || (t.mainTaskIndex == some p.index)) with
      | some parent =>
        if parent.task ≠ "" then ["under " ++ parent.task, parent.task] else []
      | none => []
    else []
  String.intercalate " " (ctxFields ++ ctxParent)

/-- The searchable text the *amended* C3 claim names: the task's nonempty
name and remarks, followed — whenever the task record carries a
`mainTaskId` key and the schedule is nonempty — by the
hierarchical-context block `amendedContextBlock`. -/
def amendedSearchText (t : Task) (schedule : List Task) : String :=
  let own := (if t.task ≠ "" then [t.task] else []) ++
    (if t.remarks ≠ "" then [t.remarks] else [])
  String.intercalate " " (own ++
    (if schedule ≠ [] ∧ t.mainTaskId.isSome then
      [amendedContextBlock t schedule] else []))

/-! ## Concrete fixtures for the testable properties (spec §8) -/

/-- 25% deposit stage of the payment-exactness scenario. -/
def stage25 : PaymentStage :=
  { name := "deposit", percentage := 25, effectiveDate := some "2024-01-01" }

/-- 75% final stage of the payment-exactness scenario. -/
def stage75 : PaymentStage :=
  { name := "final", percentage := 75, effectiveDate := some "2024-03-01" }

/-- The spec §8 payment-exactness task: `totalPaymentAmount = 4200` with
stages 25% and 75%. -/
def payTask4200 : Task :=
  { id := "pay1", task := "Cabinets", taskType := "material",
    totalPaymentAmount := 4200, paymentStages := [stage25, stage75] }

/-- A task with `totalPaymentAmount = 0` but a payment stage. -/
def zeroPayTask : Task :=
  { id := "z1", task := "Zero", taskType := "material",
    totalPaymentAmount := 0, paymentStages := [stage25] }

/-- A stage whose `effectiveDate` does not parse as a date. -/
def undatedStage : PaymentStage :=
  { name := "open", percentage := 50, effectiveDate := some "TBD" }

/-- Task carrying the unparseable-date stage. -/
def tbdTask : Task :=
  { id := "u1", task := "Undated", taskType := "material",
    totalPaymentAmount := 100, paymentStages := [undatedStage] }

/-- A stage with no `effectiveDate` at all. -/
def noDateStage : PaymentStage := { name := "first", percentage := 50 }

/-- A stage dated exactly at the `"9999-12-31"` sort sentinel. -/
def sentinelStage : PaymentStage :=
  { name := "closeout", percentage := 50, effectiveDate := some "9999-12-31" }

/-- Task whose stages are an undated stage followed by a stage dated at
the sort sentinel. -/
def sentinelTask : Task :=
  { id := "s1", task := "Sentinel", taskType := "material",
    totalPaymentAmount := 100, paymentStages := [noDateStage, sentinelStage] }

/-- A labour subtask record (with a `mainTaskId` key holding `None`)
whose name and remarks do not mention its type. -/
def demoTask : Task :=
  { id := "t1", task := "Demo Work", taskType := "labour",
    mainTaskId := some none }

/-- Main task of the hierarchy-union scenario: children linked by id
`"x"`, by index `7`, and by back-reference. -/
def hierMain : Task :=
  { id := "m", task := "Main Phase", isMainTask := true,
    subtaskIds := ["x"], subtaskIndices := [7] }

/-- Subtask linked through `subtaskIds` and also back-referencing the
parent (two linkage paths). -/
def subById : Task :=
  { id := "x", index := 5, task := "By Id", mainTaskId := some (some "m") }

/-- Subtask linked through `subtaskIndices`. -/
def subByIndex : Task := { id := "y", index := 7, task := "By Index" }

/-- Subtask linked through its own `mainTaskId`. -/
def subByParent : Task :=
  { id := "z", index := 9, task := "By Parent", mainTaskId := some (some "m") }

/-- A task with no linkage to `hierMain`. -/
def unlinkedTask : Task := { id := "w", index := 11, task := "Unlinked" }

/-- Schedule of the hierarchy-union scenario. -/
def hierSchedule : List Task := [subById, subByIndex, subByParent, unlinkedTask]

/-- Cyclic dependency scenario: task `a` depends on task `b`. -/
def cycleTaskA : Task :=
  { id := "a", task := "A", dependencies := [{ predecessorId := some "b" }] }

/-- Cyclic dependency scenario: task `b` depends back on task `a`. -/
def cycleTaskB : Task :=
  { id := "b", task := "B", dependencies := [{ predecessorId := some "a" }] }

/-- The cyclic two-task schedule A→B→A. -/
def cycleSchedule : List Task := [cycleTaskA, cycleTaskB]

/-- Raw comparison row with budget 3 and consumption 1. -/
def rawRowThird : RawComparisonRow :=
  { costCode := "03-100", budgetedAmount := some 3, consumedAmount := some 1 }

/-- Raw comparison row with zero budget and consumption 500. -/
def zeroBudgetRow : RawComparisonRow :=
  { costCode := "00-000", budgetedAmount := some 0, consumedAmount := some 500 }

/-- Comparison details whose only row sits in the `other` category. -/
def bogusDetails : ComparisonDetails :=
  { other := [parseComparisonRow rawRowThird] }

end BuilderSolve

namespace BuilderSolve

/-! ## Theorems -/

unseal List.merge List.mergeSort

/-- C7: for every task the derived status is one of the three statuses, a
`percentageComplete ≥ 100` yields `completed`, `= 0` yields `not_started`,
and a value strictly between 0 and 100 yields `in_progress`. -/
theorem status_partition (t : Task) :
    (getTaskStatus t = "not_started" ∨ getTaskStatus t = "in_progress" ∨
      getTaskStatus t = "completed") ∧
    (t.percentageComplete ≥ 100 → getTaskStatus t = "completed") ∧
    (t.percentageComplete = 0 → getTaskStatus t = "not_started") ∧
    (0 < t.percentageComplete → t.percentageComplete < 100 →
      getTaskStatus t = "in_progress") := by
  unfold getTaskStatus
  refine ⟨?_, ?_, ?_, ?_⟩
  · split
    · exact Or.inr (Or.inr rfl)
    · split
      · exact Or.inr (Or.inl rfl)
      · exact Or.inl rfl
  · intro h; simp [h]
  · intro h; rw [h]; norm_num
  · intro h1 h2
    rw [if_neg (by linarith), if_pos h1]

/-- Witness for `status_partition`: instantiating it at concrete tasks with
`percentageComplete` 100, 0 and 40 discharges each hypothesis. -/
theorem status_partition_witness :
    getTaskStatus { percentageComplete := 100 } = "completed" ∧
    getTaskStatus { percentageComplete := 0 } = "not_started" ∧
    getTaskStatus { percentageComplete := 40 } = "in_progress" :=
  ⟨(status_partition { percentageComplete := 100 }).2.1 (by norm_num),
   (status_partition { percentageComplete := 0 }).2.2.1 rfl,
   (status_partition { percentageComplete := 40 }).2.2.2 (by norm_num) (by norm_num)⟩

/-- C4: a task with `totalPaymentAmount ≤ 0` contributes no payment
entry whatever its stages or the supplied filters; since every output
mode of `query_payment_schedule` is computed from the collected entries,
such a task contributes to none of them. -/
theorem zero_payment_task_skipped (dateFrom dateTo : Option PyDate)
    (taskType taskSearch : Option String) (schedule : List Task) (task : Task)
    (h : task.totalPaymentAmount ≤ 0) :
    taskPayments dateFrom dateTo taskType taskSearch schedule task = [] := by
  simp [taskPayments, h]

/-- Witness for `zero_payment_task_skipped`: the zero-amount task with a
25% stage contributes nothing. -/
theorem zero_payment_task_skipped_witness :
    taskPayments none none none none [zeroPayTask] zeroPayTask = [] :=
  zero_payment_task_skipped none none none none [zeroPayTask] zeroPayTask (by norm_num [zeroPayTask])

/-- C5: every emitted payment entry's amount is
`totalPaymentAmount × percentage/100` rounded to 2 decimals, and the
spec §8 scenario (total 4200, stages 25% and 75%) yields amounts 1050 and
3150 summing to 4200. -/
theorem payment_amount_formula :
    (∀ (dateFrom dateTo : Option PyDate) (taskType taskSearch : Option String)
      (schedule : List Task) (task : Task) (e : PaymentEntry),
      e ∈ taskPayments dateFrom dateTo taskType taskSearch schedule task →
      e.amount = round2 (task.totalPaymentAmount * (e.percentage / 100))) ∧
    (queryPayments {} [payTask4200]).map (·.amount) = [1050, 3150] ∧
    ((queryPayments {} [payTask4200]).map (·.amount)).sum = 4200 := by
  refine ⟨?_, ?_, ?_⟩
  · intro dateFrom dateTo taskType taskSearch schedule task e he
    unfold taskPayments at he
    split at he
    · simp at he
    · split at he
      · simp at he
      · split at he
        · simp at he
        · obtain ⟨stage, -, rfl⟩ := List.mem_map.mp he
          rfl
  · have h1 : (queryPayments {} [payTask4200]).map (·.amount) =
        [round2 (4200 * (25 / 100)), round2 (4200 * (75 / 100))] := by
      unfold queryPayments sortPayments
      rfl
    rw [h1]
    norm_num [round2, round_eq, Int.floor_eq_iff]
  · have h1 : (queryPayments {} [payTask4200]).map (·.amount) =
        [round2 (4200 * (25 / 100)), round2 (4200 * (75 / 100))] := by
      unfold queryPayments sortPayments
      rfl
    rw [h1]
    norm_num [round2, round_eq, Int.floor_eq_iff]

/-- Witness for `payment_amount_formula`: its first conjunct applied to
the concrete 25% entry of the 4200 task. -/
theorem payment_amount_formula_witness :
    (mkPaymentEntry [payTask4200] payTask4200 stage25).amount =
      round2 (payTask4200.totalPaymentAmount *
        ((mkPaymentEntry [payTask4200] payTask4200 stage25).percentage / 100)) :=
  payment_amount_formula.1 none none none none [payTask4200] payTask4200 _
    (by
      have h : taskPayments none none none none [payTask4200] payTask4200 =
          [mkPaymentEntry [payTask4200] payTask4200 stage25,
            mkPaymentEntry [payTask4200] payTask4200 stage75] := rfl
      rw [h]
      exact List.mem_cons_self _ _)

/-- C10: a stage whose `effectiveDate` is absent or unparseable passes
the date filter for every `dateFrom`/`dateTo`, and its entry is emitted
whenever the owning task passes the task-level filters and has a
positive `totalPaymentAmount`. -/
theorem undated_stage_survives :
    (∀ (dateFrom dateTo : Option PyDate) (stage : PaymentStage),
      parseDate stage.effectiveDate = none →
      stageKeep dateFrom dateTo stage = true) ∧
    (∀ (dateFrom dateTo : Option PyDate) (taskType taskSearch : Option String)
      (schedule : List Task) (task : Task) (stage : PaymentStage),
      stage ∈ task.paymentStages →
      parseDate stage.effectiveDate = none →
      taskTypeOk taskType task = true →
      taskSearchOk taskSearch schedule task = true →
      0 < task.totalPaymentAmount →
      mkPaymentEntry schedule task stage ∈
        taskPayments dateFrom dateTo taskType taskSearch schedule task) := by
  constructor
  · intro dateFrom dateTo stage hd
    unfold stageKeep
    rw [hd]
    cases dateFrom <;> cases dateTo <;> rfl
  · intro dateFrom dateTo taskType taskSearch schedule task stage hs hd ht hq hp
    have hkeep : stageKeep dateFrom dateTo stage = true := by
      unfold stageKeep
      rw [hd]
      cases dateFrom <;> cases dateTo <;> rfl
    unfold taskPayments
    rw [ht, hq]
    simp only [Bool.not_true, Bool.false_eq_true, if_false, if_neg (not_le.mpr hp)]
    exact List.mem_map_of_mem _ (List.mem_filter.mpr ⟨hs, hkeep⟩)

/-- Witness for `undated_stage_survives`: the `"TBD"`-dated stage's entry
survives a `2024-01-01 .. 2024-12-31` date window. -/
theorem undated_stage_survives_witness :
    mkPaymentEntry [tbdTask] tbdTask undatedStage ∈
      taskPayments (some ⟨2024, 1, 1⟩) (some ⟨2024, 12, 31⟩)
        (some "material") none [tbdTask] tbdTask :=
  undated_stage_survives.2 (some ⟨2024, 1, 1⟩) (some ⟨2024, 12, 31⟩)
    (some "material") none [tbdTask] tbdTask undatedStage
    (by simp [tbdTask]) rfl rfl rfl (by norm_num [tbdTask])

/-- C8 counterexample: the claim says `progress` equals
`consumed/budgeted×100` when the budget is positive, but the code stores
that ratio rounded to 1 decimal place: a row with budget 3 and
consumption 1 gets progress `33.3`, not `100/3`. -/
theorem comparison_progress_rounding_counterexample :
    (parseComparisonRows [rawRowThird]).map (·.progress) = [333 / 10] ∧
    (333 / 10 : ℚ) ≠ 1 / 3 * 100 := by
  constructor
  · norm_num [parseComparisonRows, parseComparisonRow, rawRowThird, ensureFloat,
      round1, round_eq, Int.floor_eq_iff]
  · norm_num

/-- C8 (amended): for every parsed or re-formatted comparison row,
`isOverBudget` holds iff `consumedAmount > budgetedAmount`, and
`progress` is 0 when `budgetedAmount ≤ 0` and `consumed/budgeted×100`
*rounded to 1 decimal place* otherwise; the zero-budget row (budget 0,
consumed 500) gets progress 0 and `isOverBudget` true. -/
theorem comparison_flags_and_progress :
    (∀ (rows : List RawComparisonRow) (r : ParsedRow),
      r ∈ parseComparisonRows rows →
      ((r.isOverBudget = true ↔ r.budgetedAmount < r.consumedAmount) ∧
        r.progress = if r.budgetedAmount ≤ 0 then 0
          else round1 (r.consumedAmount / r.budgetedAmount * 100))) ∧
    (∀ row : ParsedRow,
      (((formatComparisonRowSummary row).isOverBudget = true ↔
        row.budgetedAmount < row.consumedAmount) ∧
        (formatComparisonRowSummary row).progress =
          if row.budgetedAmount ≤ 0 then 0
          else round1 (row.consumedAmount / row.budgetedAmount * 100))) ∧
    (parseComparisonRows [zeroBudgetRow]).map
      (fun r => (r.progress, r.isOverBudget)) = [(0, true)] := by
  refine ⟨?_, ?_, ?_⟩
  · intro rows r hr
    obtain ⟨raw, -, rfl⟩ := List.mem_map.mp hr
    unfold parseComparisonRow
    constructor
    · simp
    · rcases le_or_lt (ensureFloat raw.budgetedAmount) 0 with h | h
      · simp only [if_pos h, if_neg (not_lt.mpr h)]
        simp [round1]
      · simp only [if_pos h, if_neg (not_le.mpr h)]
  · intro row
    unfold formatComparisonRowSummary
    constructor
    · simp
    · rcases le_or_lt row.budgetedAmount 0 with h | h
      · simp only [if_pos h, if_neg (not_lt.mpr h)]
        simp [round1]
      · simp only [if_pos h, if_neg (not_le.mpr h)]
  · norm_num [parseComparisonRows, parseComparisonRow, zeroBudgetRow, ensureFloat,
      round1, round_eq, Int.floor_eq_iff]

/-- Witness for `comparison_flags_and_progress`: its first conjunct
applied to the parsed budget-3/consumed-1 row. -/
theorem comparison_flags_and_progress_witness :
    ((parseComparisonRow rawRowThird).isOverBudget = true ↔
      (parseComparisonRow rawRowThird).budgetedAmount <
        (parseComparisonRow rawRowThird).consumedAmount) ∧
    (parseComparisonRow rawRowThird).progress =
      if (parseComparisonRow rawRowThird).budgetedAmount ≤ 0 then 0
      else round1 ((parseComparisonRow rawRowThird).consumedAmount /
        (parseComparisonRow rawRowThird).budgetedAmount * 100) :=
  comparison_flags_and_progress.1 [rawRowThird] (parseComparisonRow rawRowThird)
    (List.mem_map_of_mem _ (List.mem_cons_self _ _))

/-- C9 counterexample: the claim says an unrecognized category yields a
zero/empty result, but `"BOGUS"` selects the (nonempty) `other` rows. -/
theorem unknown_category_counterexample :
    comparisonRowsSelected { category := some "BOGUS" } bogusDetails =
      bogusDetails.other ∧
    bogusDetails.other ≠ [] := by
  constructor
  · rfl
  · simp [bogusDetails]

/-- C9 (amended): an unrecognized (lowercased) category argument makes
`query_comparison_rows` fall back to the `other` category's rows — never
an exception — both at the category-selection step and through the whole
filter chain when the remaining filters are absent. -/
theorem unknown_category_falls_back :
    (∀ (category : String) (d : ComparisonDetails),
      category ∉ ["all", "allowance", "labour", "material", "subcontractor", "other"] →
      selectComparisonRows category d = d.other) ∧
    (∀ (c : String) (d : ComparisonDetails),
      pyLower c ∉ ["all", "allowance", "labour", "material", "subcontractor", "other"] →
      comparisonRowsSelected { category := some c } d = d.other) := by
  constructor
  · intro category d h
    simp only [List.mem_cons, List.not_mem_nil, or_false] at h
    push_neg at h
    obtain ⟨h1, h2, h3, h4, h5, h6⟩ := h
    unfold selectComparisonRows
    rw [if_neg h1, if_neg h2, if_neg h3, if_neg h4, if_neg h5, if_neg h6]
  · intro c d h
    simp only [List.mem_cons, List.not_mem_nil, or_false] at h
    push_neg at h
    obtain ⟨h1, h2, h3, h4, h5, h6⟩ := h
    unfold comparisonRowsSelected selectComparisonRows
    simp only [Option.getD_some, optStrTruthy, Bool.false_eq_true, if_false]
    rw [if_neg h1, if_neg h2, if_neg h3, if_neg h4, if_neg h5, if_neg h6]

/-- Witness for `unknown_category_falls_back`: applied to the category
`"Bogus"`. -/
theorem unknown_category_falls_back_witness :
    selectComparisonRows "bogus" bogusDetails = bogusDetails.other ∧
    comparisonRowsSelected { category := some "Bogus" } bogusDetails =
      bogusDetails.other :=
  ⟨unknown_category_falls_back.1 "bogus" bogusDetails (by decide),
   unknown_category_falls_back.2 "Bogus" bogusDetails (by decide)⟩

/-- The `if`/`elif` chain of the subtask loop is the filter by the union
of the three linkage conditions. -/
theorem hierarchySubtasks_eq_filter (M : Task) (l : List Task) :
    hierarchySubtasks M l = l.filter (fun t => decide (subtaskLinked M t)) := by
  induction l with
  | nil => rfl
  | cons t rest ih =>
    unfold hierarchySubtasks
    by_cases h1 : t.id ∈ M.subtaskIds
    · simp [List.filter_cons, subtaskLinked, h1, ih]
    · by_cases h2 : t.index ∈ M.subtaskIndices
      · simp [List.filter_cons, subtaskLinked, h1, h2, ih]
      · by_cases h3 : t.mainTaskIdVal = some M.id
        · simp [List.filter_cons, subtaskLinked, h1, h2, h3, ih]
        · simp [List.filter_cons, subtaskLinked, h1, h2, h3, ih]

/-- C2: a task is in the subtask list of `query_task_hierarchy` iff it is
a schedule entry satisfying at least one of the three linkage paths
(id in `subtaskIds`, index in `subtaskIndices`, `mainTaskId` equal to the
parent's id), and on a duplicate-free schedule each such task appears
exactly once. -/
theorem hierarchy_union (M : Task) (schedule : List Task) :
    (∀ t : Task, t ∈ hierarchySubtasks M schedule ↔ t ∈ schedule ∧
      (t.id ∈ M.subtaskIds ∨ t.index ∈ M.subtaskIndices ∨
        t.mainTaskIdVal = some M.id)) ∧
    (schedule.Nodup → (hierarchySubtasks M schedule).Nodup) := by
  constructor
  · intro t
    rw [hierarchySubtasks_eq_filter, List.mem_filter]
    simp [subtaskLinked]
  · intro hn
    rw [hierarchySubtasks_eq_filter]
    exact hn.filter _

/-- Witness for `hierarchy_union`: in the spec §8 scenario the id-linked,
index-linked and back-referencing tasks are all subtasks of `hierMain`,
the doubly-linked one appears exactly once, and the unlinked one is
absent. -/
theorem hierarchy_union_witness :
    subById ∈ hierarchySubtasks hierMain hierSchedule ∧
    subByIndex ∈ hierarchySubtasks hierMain hierSchedule ∧
    subByParent ∈ hierarchySubtasks hierMain hierSchedule ∧
    ¬ unlinkedTask ∈ hierarchySubtasks hierMain hierSchedule ∧
    (hierarchySubtasks hierMain hierSchedule).Nodup :=
  ⟨((hierarchy_union hierMain hierSchedule).1 subById).mpr
      ⟨by decide, Or.inl (by decide)⟩,
   ((hierarchy_union hierMain hierSchedule).1 subByIndex).mpr
      ⟨by decide, Or.inr (Or.inl (by decide))⟩,
   ((hierarchy_union hierMain hierSchedule).1 subByParent).mpr
      ⟨by decide, Or.inr (Or.inr rfl)⟩,
   fun h => by
     have := ((hierarchy_union hierMain hierSchedule).1 unlinkedTask).mp h
     revert this
     decide,
   (hierarchy_union hierMain hierSchedule).2 (by decide)⟩

/-- Totality of the Python string comparison. -/
theorem charListLe_total : ∀ a b, charListLe a b || charListLe b a
  | [], b => by cases b <;> simp [charListLe]
  | a :: as, [] => by simp [charListLe]
  | a :: as, b :: bs => by
    simp only [charListLe]
    rcases Nat.lt_trichotomy a.toNat b.toNat with h | h | h
    · simp [h]
    · simpa [h, Nat.lt_irrefl] using charListLe_total as bs
    · simp [h, Nat.lt_asymm h, Nat.ne_of_gt h]

/-- Transitivity of the Python string comparison. -/
theorem charListLe_trans :
    ∀ a b c, charListLe a b → charListLe b c → charListLe a c
  | [], _, c, _, _ => by cases c <;> simp [charListLe]
  | a :: as, [], c, h, _ => by simp [charListLe] at h
  | a :: as, b :: bs, [], _, h => by simp [charListLe] at h
  | a :: as, b :: bs, c :: cs, h1, h2 => by
    simp only [charListLe] at h1 h2 ⊢
    rcases Nat.lt_trichotomy a.toNat b.toNat with hab | hab | hab <;>
      rcases Nat.lt_trichotomy b.toNat c.toNat with hbc | hbc | hbc
    all_goals
      first
      | (simp [Nat.lt_trans hab hbc])
      | (simp_all; omega)
      | simp_all [charListLe_trans as bs cs]

/-- C6 counterexample: an undated stage entry is *not* placed after a
stage dated exactly `"9999-12-31"` — their sort keys tie and the stable
sort keeps the undated entry first. -/
theorem payment_sort_sentinel_counterexample :
    (queryPayments {} [sentinelTask]).map (·.effectiveDate) =
      [none, some "9999-12-31"] := by rfl

/-- C6 (amended): the emitted payment list is sorted ascending by the
key `effectiveDate or "9999-12-31"` under Python string comparison, so
an entry with an absent `effectiveDate` is followed only by entries
whose key is at least `"9999-12-31"` (in particular after it come no
entries dated strictly below the sentinel). -/
theorem payments_sorted :
    (∀ (args : PaymentArgs) (schedule : List Task),
      (queryPayments args schedule).Pairwise
        (fun a b => pyStrLe (paymentSortKey a) (paymentSortKey b) = true)) ∧
    (∀ (args : PaymentArgs) (schedule : List Task),
      (queryPayments args schedule).Pairwise
        (fun a b => a.effectiveDate = none →
          pyStrLe "9999-12-31" (paymentSortKey b) = true)) := by
  have hsorted : ∀ (args : PaymentArgs) (schedule : List Task),
      (queryPayments args schedule).Pairwise
        (fun a b => pyStrLe (paymentSortKey a) (paymentSortKey b) = true) := by
    intro args schedule
    unfold queryPayments sortPayments
    have h := @List.sorted_mergeSort PaymentEntry
      (fun a b : PaymentEntry => pyStrLe (paymentSortKey a) (paymentSortKey b))
      (fun a b c h1 h2 => charListLe_trans _ _ _ h1 h2)
      (fun a b => charListLe_total _ _)
      (collectPayments (parseDate args.dateFrom) (parseDate args.dateTo)
        args.taskType args.taskSearch schedule)
    simpa using h
  refine ⟨hsorted, ?_⟩
  intro args schedule
  refine (hsorted args schedule).imp ?_
  intro a b hle ha
  have hk : paymentSortKey a = "9999-12-31" := by
    simp [paymentSortKey, ha]
  rwa [hk] at hle

/-- Witness for `payments_sorted`: both conjuncts instantiated at the
sentinel schedule. -/
theorem payments_sorted_witness :
    (queryPayments {} [sentinelTask]).Pairwise
      (fun a b => pyStrLe (paymentSortKey a) (paymentSortKey b) = true) ∧
    (queryPayments {} [sentinelTask]).Pairwise
      (fun a b => a.effectiveDate = none →
        pyStrLe "9999-12-31" (paymentSortKey b) = true) :=
  ⟨payments_sorted.1 {} [sentinelTask], payments_sorted.2 {} [sentinelTask]⟩

/-- C3 counterexample: the query `"labour"` passes the `searchQuery`
filter for a task named `"Demo Work"` with empty remarks and no parent —
because the searchable context also contains the task's `taskType` (and
`id`) — while the fuzzy matcher rejects it on the text the claim
describes (name and remarks only, no resolvable parent). -/
theorem search_fields_counterexample :
    scheduleSearchPass [demoTask] "labour" demoTask = true ∧
    fuzzyMatch "labour" (claimSearchText demoTask [demoTask]) = false := by
  exact ⟨rfl, rfl⟩

/-- The candidate-field collection of `match_text` over a field list,
expanded for the two schedule search fields. -/
theorem filterMap_own_eq (t : Task) :
    (["task", "remarks"].filterMap fun f =>
      match taskFieldStr t f with
      | some v => if v ≠ "" then some v else none
      | none => none) =
    (if t.task ≠ "" then [t.task] else []) ++
      (if t.remarks ≠ "" then [t.remarks] else []) := by
  by_cases h1 : t.task = "" <;> by_cases h2 : t.remarks = "" <;>
    simp [taskFieldStr, h1, h2]

/-- The candidate-field collection of `build_searchable_context`,
expanded for its four searchable fields. -/
theorem filterMap_fields_eq (t : Task) :
    (["task", "remarks", "id", "taskType"].filterMap fun f =>
      match taskFieldStr t f with
      | some v => if v ≠ "" then some v else none
      | none => none) =
    (if t.task ≠ "" then [t.task] else []) ++
      (if t.remarks ≠ "" then [t.remarks] else []) ++
      (if t.id ≠ "" then [t.id] else []) ++
      (if t.taskType ≠ "" then [t.taskType] else []) := by
  by_cases h1 : t.task = "" <;> by_cases h2 : t.remarks = "" <;>
    by_cases h3 : t.id = "" <;> by_cases h4 : t.taskType = "" <;>
    simp [taskFieldStr, h1, h2, h3, h4]

/-- `build_searchable_context` (with parent context requested) computes
exactly the amended claim's hierarchical-context block. -/
theorem buildContext_eq_block (t : Task) (schedule : List Task) :
    buildSearchableContext t schedule true = amendedContextBlock t schedule := by
  unfold buildSearchableContext amendedContextBlock
  rw [filterMap_fields_eq]
  by_cases hs : schedule = []
  · subst hs
    simp [List.find?]
  · simp [hs]

/-- C3 (amended): for every non-trivial query, the `query_schedule`
`searchQuery` filter passes a task iff the fuzzy matcher matches the
task's name and remarks extended — whenever the task record carries a
`mainTaskId` key and the schedule is nonempty — by the searchable
context block, which also contains the task's `id` and `taskType`
besides the parent-name extensions. -/
theorem schedule_search_text (t : Task) (schedule : List Task) (q : String)
    (h1 : pyLower (pyStrip q) ≠ "all") (h2 : pyLower (pyStrip q) ≠ "*")
    (h3 : pyLower (pyStrip q) ≠ "") :
    scheduleSearchPass schedule q t =
      fuzzyMatch (pyStrip q) (amendedSearchText t schedule) := by
  have hq : q ≠ "" := by
    intro h
    subst h
    exact h3 rfl
  unfold scheduleSearchPass matchText
  rw [if_neg hq, if_neg (by rintro (h | h | h) <;> [exact h1 h; exact h2 h; exact h3 h])]
  unfold amendedSearchText
  rw [filterMap_own_eq]
  by_cases hs : schedule = []
  · simp [hs]
  · by_cases hm : t.mainTaskId.isSome
    · simp [hs, hm, buildContext_eq_block]
    · simp [hs, hm]

/-- Witness for `schedule_search_text`: instantiated at the demo task
and the query `"labour"`. -/
theorem schedule_search_text_witness :
    scheduleSearchPass [demoTask] "labour" demoTask =
      fuzzyMatch (pyStrip "labour") (amendedSearchText demoTask [demoTask]) :=
  schedule_search_text demoTask [demoTask] "labour"
    (by decide) (by decide) (by decide)

/-- A `find?` hit over the reversed schedule is a schedule member. -/
theorem findById_mem {schedule : List Task} {k : String} {t : Task}
    (h : findById schedule k = some t) : t ∈ schedule := by
  unfold findById at h
  have := List.mem_of_find?_eq_some h
  simpa using this

/-- A `find?` hit over the reversed schedule is a schedule member. -/
theorem findByIndex_mem {schedule : List Task} {k : String} {t : Task}
    (h : findByIndex schedule k = some t) : t ∈ schedule := by
  unfold findByIndex at h
  have := List.mem_of_find?_eq_some h
  simpa using this

/-- A resolved predecessor is a schedule member. -/
theorem resolvePred_mem {schedule : List Task} {dep : Dependency} {t : Task}
    (h : resolvePred schedule dep = some t) : t ∈ schedule := by
  unfold resolvePred at h
  split at h
  · exact absurd h (by simp)
  · split at h
    · rename_i heq
      cases h
      exact findById_mem heq
    · exact findByIndex_mem h

/-- A schedule member's id belongs to the schedule's id set. -/
theorem id_mem_idSet {schedule : List Task} {t : Task} (h : t ∈ schedule) :
    t.id ∈ idSet schedule := by
  simp only [idSet, List.mem_toFinset, List.mem_map]
  exact ⟨t, h, rfl⟩

/-- An invariant preserved by every fold step holds for the fold. -/
theorem foldl_preserve {α β : Type _} {P : β → Prop} (f : β → α → β)
    (hstep : ∀ b a, P b → P (f b a)) :
    ∀ (l : List α) (b : β), P b → P (List.foldl f b l)
  | [], _, hb => hb
  | a :: l, b, hb => foldl_preserve f hstep l (f b a) (hstep b a hb)

/-- Two folds whose step functions agree on every state satisfying a
preserved invariant compute the same result. -/
theorem foldl_congr_preserve {α β : Type _} {P : β → Prop} {f g : β → α → β}
    (hfg : ∀ b a, P b → f b a = g b a)
    (hstep : ∀ b a, P b → P (f b a)) :
    ∀ (l : List α) (b : β), P b → List.foldl f b l = List.foldl g b l
  | [], _, _ => rfl
  | a :: l, b, hb => by
    simp only [List.foldl_cons]
    rw [← hfg b a hb]
    exact foldl_congr_preserve hfg hstep l (f b a) (hstep b a hb)

/-- The walker only ever adds ids to the shared `visited` set. -/
theorem visited_subset (fuel : Nat) :
    ∀ (schedule : List Task) (inc : Bool) (task : Task) (visited : List String),
    visited ⊆ (getPredsF fuel schedule inc task visited).2 := by
  induction fuel with
  | zero =>
    intro schedule inc task visited
    simp [getPredsF]
  | succ fuel ih =>
    intro schedule inc task visited
    by_cases hv : task.id ∈ visited
    · simp [getPredsF, hv]
    · simp only [getPredsF, hv, if_false]
      refine foldl_preserve
        (P := fun st : List PredTree × List String => visited ⊆ st.2) _
        ?_ task.dependencies ([], task.id :: visited) (List.subset_cons_self _ _)
      intro st dep hst
      cases hr : resolvePred schedule dep with
      | none => simpa [hr] using hst
      | some pred =>
        cases inc with
        | false => simpa [hr] using hst
        | true =>
          simp only [hr, if_true]
          exact hst.trans (ih schedule true pred st.2)

/-- Growing the visited set cannot increase the number of unvisited
schedule ids. -/
theorem remainingIds_mono (schedule : List Task) {v w : List String}
    (h : v ⊆ w) : remainingIds schedule w ≤ remainingIds schedule v := by
  unfold remainingIds
  apply Finset.card_le_card
  apply Finset.sdiff_subset_sdiff (le_refl _)
  intro x hx
  rw [List.mem_toFinset] at hx ⊢
  exact h hx

/-- Visiting a schedule member's fresh id strictly shrinks the number of
unvisited schedule ids. -/
theorem remainingIds_cons_lt (schedule : List Task) (task : Task)
    (visited : List String) (ht : task ∈ schedule) (hv : task.id ∉ visited) :
    remainingIds schedule (task.id :: visited) < remainingIds schedule visited := by
  unfold remainingIds
  rw [List.toFinset_cons, Finset.sdiff_insert]
  apply Finset.card_erase_lt_of_mem
  rw [Finset.mem_sdiff]
  exact ⟨id_mem_idSet ht, by simpa using hv⟩

/-- Fuel past the number of unvisited schedule ids does not change the
walker's result: the recursion has stabilized, i.e. it terminates on
every dependency graph, cyclic ones included. -/
theorem getPredsF_stable (f : Nat) :
    ∀ (g : Nat) (schedule : List Task) (inc : Bool) (task : Task)
      (visited : List String),
      task ∈ schedule →
      remainingIds schedule visited < f → remainingIds schedule visited < g →
      getPredsF f schedule inc task visited =
        getPredsF g schedule inc task visited := by
  induction f using Nat.strong_induction_on with
  | _ f ih =>
    intro g schedule inc task visited ht hf hg
    cases f with
    | zero => omega
    | succ f' =>
      cases g with
      | zero => omega
      | succ g' =>
        by_cases hv : task.id ∈ visited
        · simp [getPredsF, hv]
        · simp only [getPredsF, hv, if_false]
          have hlt := remainingIds_cons_lt schedule task visited ht hv
          refine foldl_congr_preserve
            (P := fun st : List PredTree × List String =>
              remainingIds schedule st.2 < f' ∧ remainingIds schedule st.2 < g')
            ?_ ?_ task.dependencies ([], task.id :: visited)
            ⟨by show remainingIds schedule (task.id :: visited) < f'; omega,
              by show remainingIds schedule (task.id :: visited) < g'; omega⟩
          · intro st dep hp
            obtain ⟨hpf, hpg⟩ := hp
            cases hr : resolvePred schedule dep with
            | none => simp [hr]
            | some pred =>
              have hc := ih f' (by omega) g' schedule inc pred st.2
                (resolvePred_mem hr) hpf hpg
              cases inc <;> simp [hr, hc]
          · intro st dep hp
            obtain ⟨hpf, hpg⟩ := hp
            cases hr : resolvePred schedule dep with
            | none => simpa [hr] using ⟨hpf, hpg⟩
            | some pred =>
              cases inc with
              | false => simpa [hr] using ⟨hpf, hpg⟩
              | true =>
                have hm := remainingIds_mono schedule
                  (visited_subset f' schedule true pred st.2)
                constructor <;> simp only [hr, if_true] <;> omega

/-- C1: the predecessor walk with `includeChain` terminates on every
dependency graph — a task id already in the visited set of the walk is
not re-expanded and contributes an empty predecessor list rather than an
error; any fuel past the walker's stabilization bound computes
`getPredecessors`; and on the cyclic schedule A→B→A the walk returns the
explicit finite, non-duplicating tree. -/
theorem predecessor_walk_terminates :
    (∀ (fuel : Nat) (schedule : List Task) (inc : Bool) (task : Task)
      (visited : List String), task.id ∈ visited →
      getPredsF (fuel + 1) schedule inc task visited = ([], visited)) ∧
    (∀ (schedule : List Task) (task : Task), task ∈ schedule →
      ∀ f : Nat, schedule.length + 1 ≤ f →
      getPredsF f schedule true task [] = getPredecessors schedule true task) ∧
    (getPredecessors cycleSchedule true cycleTaskA =
      ([PredTree.node (formatTaskSummary cycleTaskB) "FS" 0
          (some [PredTree.node (formatTaskSummary cycleTaskA) "FS" 0 (some [])])],
        ["b", "a"])) := by
  refine ⟨?_, ?_, rfl⟩
  · intro fuel schedule inc task visited h
    simp [getPredsF, h]
  · intro schedule task ht f hf
    have hcard : remainingIds schedule [] ≤ schedule.length := by
      unfold remainingIds
      simp only [List.toFinset_nil, Finset.sdiff_empty]
      calc (idSet schedule).card ≤ (schedule.map Task.id).length :=
            List.toFinset_card_le _
        _ = schedule.length := List.length_map _ _
    exact getPredsF_stable f (schedule.length + 1) schedule true task []
      ht (by omega) (by omega)

/-- Witness for `predecessor_walk_terminates`: its first two conjuncts
instantiated on the cyclic schedule at concrete fuels. -/
theorem predecessor_walk_terminates_witness :
    getPredsF 5 cycleSchedule true cycleTaskA ["a"] = ([], ["a"]) ∧
    getPredsF 7 cycleSchedule true cycleTaskA [] =
      getPredecessors cycleSchedule true cycleTaskA :=
  ⟨predecessor_walk_terminates.1 4 cycleSchedule true cycleTaskA ["a"]
      (by decide),
   predecessor_walk_terminates.2.1 cycleSchedule cycleTaskA (by decide) 7
      (by decide)⟩

end BuilderSolve
